import Mathlib

/-!
Verification development for the Periscope options-chain probe
(`src/greeksTest.py`).  The Python program is shallowly embedded:

* JSON-shaped values become the inductive type `JVal`; Python dicts are
  association lists with first-match lookup (Python dicts never hold
  duplicate keys, so first-match agrees with dict lookup).
* `requests.get` and `response.json()` are external collaborators; they are
  passed as explicit function parameters (`http`, `parse`) so the client is
  a pure function of (config, transport, request).
* A call to `print` contributes one element to a `List String` of emitted
  lines (the one f-string containing an explicit `\n` contributes two, and
  the final `json.dumps` print contributes its text split on newlines).
* A Python exception is an `Option String` carrying the exception's text;
  a function that can raise returns the lines it printed before the raise
  together with that option.  The exact CPython message texts are
  paraphrased (no claim depends on them).
* Numbers are rationals (JSON numeric literals are decimal); the decimal
  rendering of a number is `numStr`, an approximation of CPython's
  `str()` that no claim depends on.  `str.upper` is modelled by
  `String.toUpper`, which agrees with CPython on ASCII data.
-/

inductive JVal where
  | jnull : JVal
  | jbool : Bool → JVal
  | jnum : Rat → JVal
  | jstr : String → JVal
  | jarr : List JVal → JVal
  | jobj : List (String × JVal) → JVal

open JVal

/-- First-match lookup in a Python dict (association list). -/
def dget : List (String × JVal) → String → Option JVal
  | [], _ => none
  | (k2, v) :: rest, k => if k2 = k then some v else dget rest k

/-- Python `d[k] = v` on a dict: replace the value of an existing key in
place, otherwise append the new binding at the end. -/
def dset : List (String × JVal) → String → JVal → List (String × JVal)
  | [], k, v => [(k, v)]
  | (k2, w) :: rest, k, v =>
    if k2 = k then (k2, v) :: rest else (k2, w) :: dset rest k v

/-- Python `d.update(kvs)`: set every binding of `kvs` in order. -/
def dictUpdate (d : List (String × JVal)) (kvs : List (String × JVal)) :
    List (String × JVal) :=
  kvs.foldl (fun acc kv => dset acc kv.1 kv.2) d

/-- A single-quote character, written by code point to keep source plain. -/
def squote : String := String.mk [Char.ofNat 39]

/-- A double-quote character. -/
def dquote : String := String.mk [Char.ofNat 34]

/-- Decimal rendering of a JSON number (approximates CPython `str()`;
no claim inspects this text). -/
def numStr (q : Rat) : String :=
  if q.den = 1 then toString q.num else toString q

/-- Python type name of a value, used in paraphrased exception texts. -/
def pyTypeName : JVal → String
  | jnull => "NoneType"
  | jbool _ => "bool"
  | jnum _ => "float"
  | jstr _ => "str"
  | jarr _ => "list"
  | jobj _ => "dict"

mutual

/-- Python `repr()` of a JSON-shaped value (quotes string literals;
containers render their items by `repr`). -/
def pyRepr : JVal → String
  | jnull => "None"
  | jbool true => "True"
  | jbool false => "False"
  | jnum q => numStr q
  | jstr s => squote ++ s ++ squote
  | jarr xs => "[" ++ pyReprArr xs ++ "]"
  | jobj fs => "\x7b" ++ pyReprObj fs ++ "\x7d"

/-- Comma-separated `repr`s of the items of a list. -/
def pyReprArr : List JVal → String
  | [] => ""
  | [x] => pyRepr x
  | x :: y :: ys => pyRepr x ++ ", " ++ pyReprArr (y :: ys)

/-- Comma-separated `repr`s of the bindings of a dict. -/
def pyReprObj : List (String × JVal) → String
  | [] => ""
  | [(k, v)] => squote ++ k ++ squote ++ ": " ++ pyRepr v
  | (k, v) :: p :: ps =>
    squote ++ k ++ squote ++ ": " ++ pyRepr v ++ ", " ++ pyReprObj (p :: ps)

end

/-- Python `str()` of a value: a string is itself, anything else is its
`repr` (correct for `None`, booleans, numbers, lists and dicts). -/
def pyStr : JVal → String
  | jstr s => s
  | v => pyRepr v

/-- Rendering of a `dict.get` result with no default: an absent key is the
value `None`, which `str()` renders as `"None"`. -/
def pyStrOpt : Option JVal → String
  | none => "None"
  | some v => pyStr v

/-- Character-wise uppercasing, agreeing with CPython `str.upper` on
ASCII data (stated over the character list so that it evaluates). -/
def upperStr (s : String) : String := String.mk (s.data.map Char.toUpper)

/-- Python `v.upper()`: defined for strings only; `none` models the
`AttributeError` raised on every other type. -/
def pyUpper : JVal → Option String
  | jstr s => some (upperStr s)
  | _ => none

/-- Python truthiness of a JSON-shaped value. -/
def pyTruthy : JVal → Bool
  | jnull => false
  | jbool b => b
  | jnum q => q ≠ 0
  | jstr s => s ≠ ""
  | jarr xs => ¬xs.isEmpty
  | jobj fs => ¬fs.isEmpty

/-- Python `len(v)` followed by iteration over `v`: defined for lists
(items), strings (one-character strings) and dicts (keys); `none` models
the `TypeError` raised by `len` on every other type. -/
def pyLenIter : JVal → Option (Nat × List JVal)
  | jarr xs => some (xs.length, xs)
  | jstr s => some (s.data.length, s.data.map (fun c => jstr (String.mk [c])))
  | jobj fs => some (fs.length, fs.map (fun kv => jstr kv.1))
  | _ => none

/-- Boolean prefix test on character lists. -/
def listStarts : List Char → List Char → Bool
  | [], _ => true
  | _ :: _, [] => false
  | a :: as, b :: bs => if a = b then listStarts as bs else false

/-- Boolean prefix test on strings, via the underlying character lists. -/
def strStarts (p s : String) : Bool := listStarts p.data s.data

/-- Number of lines in `ls` that start with the text `p`. -/
def countP (p : String) (ls : List String) : Nat :=
  (ls.filter (fun l => strStarts p l)).length

/-!
The snapshot client (`get_options_chain_snapshot`, lines 12-31 of the
source) and the `__main__` driver.  The module globals `API_KEY` and
`BASE_URL` become a `Config`; the `requests` transport and the JSON
decoder are explicit function parameters.
-/

/-- The two module-level settings read from the environment. -/
structure Config where
  api_key : String
  base_url : String

/-- The single HTTP request issued by `requests.get(url, params=params)`. -/
structure HttpRequest where
  method : String
  url : String
  params : List (String × JVal)

/-- An upstream HTTP response as seen through the transport library.
HTTP status codes lie in 100..599; the bound is recorded because
`raise_for_status` distinguishes the client-error and server-error
ranges and raises on nothing above them. -/
structure HttpResponse where
  status : Nat
  reason : String
  url : String
  body : String
  status_lt : status < 600

/-- The two kinds of exception the driver distinguishes: an `HTTPError`
(which carries the response body text via `e.response.text`) and any
other failure, such as a JSON decode error. -/
inductive ClientError where
  | httpError : String → String → ClientError
  | decodeError : String → ClientError

/-- Message built by `requests.Response.raise_for_status`: present exactly
when the status lies in the client-error or server-error range. -/
def httpErrorMsg (r : HttpResponse) : Option String :=
  if 400 ≤ r.status ∧ r.status < 500 then
    some (toString r.status ++ " Client Error: " ++ r.reason ++ " for url: " ++ r.url)
  else if 500 ≤ r.status ∧ r.status < 600 then
    some (toString r.status ++ " Server Error: " ++ r.reason ++ " for url: " ++ r.url)
  else none

/-- `response.raise_for_status()`: raises an `HTTPError` carrying the
response (hence its body text) on a 4xx or 5xx status. -/
def raise_for_status (r : HttpResponse) : Option ClientError :=
  (httpErrorMsg r).map (fun m => ClientError.httpError m r.body)

/-- The request built from lines 23-26 of the source: the URL is
`BASE_URL + "/snapshot/options/" + underlying` with the underlying
inserted verbatim, and the params dict starts from `apiKey` bound to the
configured key and is then merged with the caller's keyword filters. -/
def issuedRequest (cfg : Config) (underlying : String)
    (kwargs : List (String × JVal)) : HttpRequest :=
  { method := "GET"
    url := cfg.base_url ++ "/snapshot/options/" ++ underlying
    params := dictUpdate [("apiKey", JVal.jstr cfg.api_key)] kwargs }

/-- `get_options_chain_snapshot(underlying_ticker, **kwargs)`: issues one
GET, raises on a 4xx/5xx status, otherwise decodes the body and returns
the decoded document unchanged.  The first component is the list of
requests handed to the transport (always exactly one). -/
def get_options_chain_snapshot (cfg : Config)
    (http : HttpRequest → HttpResponse) (parse : String → Option JVal)
    (underlying : String) (kwargs : List (String × JVal)) :
    List HttpRequest × Except ClientError JVal :=
  let req := issuedRequest cfg underlying kwargs
  let resp := http req
  ([req],
    match raise_for_status resp with
    | some e => Except.error e
    | none =>
      match parse resp.body with
      | some doc => Except.ok doc
      | none => Except.error (ClientError.decodeError "Expecting value"))

/-!
The renderer (`print_options_chain`, lines 34-70 of the source).  Every
`option.get(k, default)` is modelled by `dget` plus the default; the
crash points (`.get` on a non-dict, `.upper()` on a non-string, `len` on
an unsized value) return the lines printed before the raise together
with the exception text.
-/

/-- Paraphrase of the `AttributeError` text for a missing `get` method. -/
def noAttrGet (v : JVal) : String :=
  pyTypeName v ++ " object has no attribute get"

/-- Paraphrase of the `AttributeError` text for a missing `upper` method. -/
def noAttrUpper (v : JVal) : String :=
  pyTypeName v ++ " object has no attribute upper"

/-- Paraphrase of the `TypeError` text raised by `len`. -/
def noLen (v : JVal) : String :=
  "object of type " ++ pyTypeName v ++ " has no len"

/-- `m.get(k, "N/A")`: the field value with the sentinel default. -/
def fieldOr (m : List (String × JVal)) (k : String) : JVal :=
  (dget m k).getD (JVal.jstr "N/A")

/-- `option.get(k, \x7b\x7d)`: a sub-mapping with the empty-dict default. -/
def subMap (fs : List (String × JVal)) (k : String) : JVal :=
  (dget fs k).getD (JVal.jobj [])

/-- Lookup of a key inside a named sub-mapping of a contract; `none` when
the sub-mapping or the key is absent (or the sub-value is not a dict). -/
def subField (fs : List (String × JVal)) (sub k : String) : Option JVal :=
  match dget fs sub with
  | some (JVal.jobj ds) => dget ds k
  | _ => none

/-- The `Contract:` line of a block (line 49 of the source). -/
def contractLine (ds : List (String × JVal)) : String :=
  "Contract: " ++ pyStr (fieldOr ds "ticker")

/-- Lines 49-55 of the source: the details fields and the `Greeks:`
heading, with `ty` the already-uppercased contract type. -/
def headLines (ds : List (String × JVal)) (ty : String) : List String :=
  [contractLine ds,
   "  Type: " ++ ty,
   "  Strike: $" ++ pyStr (fieldOr ds "strike_price"),
   "  Expiration: " ++ pyStr (fieldOr ds "expiration_date"),
   "  Exercise Style: " ++ pyStr (fieldOr ds "exercise_style"),
   "  Greeks:"]

/-- Lines 56-59 of the source: the four Greeks (note the two spaces after
`Vega:` in the source). -/
def greekLines (gs : List (String × JVal)) : List String :=
  ["    Delta: " ++ pyStr (fieldOr gs "delta"),
   "    Gamma: " ++ pyStr (fieldOr gs "gamma"),
   "    Theta: " ++ pyStr (fieldOr gs "theta"),
   "    Vega:  " ++ pyStr (fieldOr gs "vega")]

/-- Lines 61-62 of the source: top-level implied volatility and open
interest of the contract. -/
def tailLines (fs : List (String × JVal)) : List String :=
  ["  Implied Volatility: " ++ pyStr (fieldOr fs "implied_volatility"),
   "  Open Interest: " ++ pyStr (fieldOr fs "open_interest")]

/-- The single text of a rendered `Last Quote:` line. -/
def quoteLineStr (qs : List (String × JVal)) : String :=
  "  Last Quote: Bid $" ++ (pyStr (fieldOr qs "bid") ++ (" / Ask $" ++ pyStr (fieldOr qs "ask")))

/-- The single text of a rendered `Last Trade:` line. -/
def tradeLineStr (ts : List (String × JVal)) : String :=
  "  Last Trade: $" ++ (pyStr (fieldOr ts "price") ++ (" (" ++ (pyStr (fieldOr ts "size") ++ " contracts)")))

/-- Lines 64-65 of the source: the `Last Quote:` line is printed only when
`last_quote` is truthy; a truthy non-dict raises inside the f-string. -/
def quoteLines (v : JVal) : List String × Option String :=
  if pyTruthy v then
    match v with
    | JVal.jobj qs => ([quoteLineStr qs], none)
    | w => ([], some (noAttrGet w))
  else ([], none)

/-- Lines 67-68 of the source: the `Last Trade:` line, symmetric to the
quote line. -/
def tradeLines (v : JVal) : List String × Option String :=
  if pyTruthy v then
    match v with
    | JVal.jobj ts => ([tradeLineStr ts], none)
    | w => ([], some (noAttrGet w))
  else ([], none)

/-- One iteration of the `for option in results` loop (lines 43-70): the
lines printed for one contract, stopping at the first raise. -/
def renderContract (option : JVal) : List String × Option String :=
  match option with
  | JVal.jobj fs =>
    match subMap fs "details" with
    | JVal.jobj ds =>
      match pyUpper (fieldOr ds "contract_type") with
      | some ty =>
        match subMap fs "greeks" with
        | JVal.jobj gs =>
          match quoteLines (subMap fs "last_quote") with
          | (ql, none) =>
            match tradeLines (subMap fs "last_trade") with
            | (tl, none) =>
              (headLines ds ty ++ greekLines gs ++ tailLines fs ++ ql ++ tl ++ [""],
                none)
            | (tl, some e) =>
              (headLines ds ty ++ greekLines gs ++ tailLines fs ++ ql ++ tl, some e)
          | (ql, some e) =>
            (headLines ds ty ++ greekLines gs ++ tailLines fs ++ ql, some e)
        | g => (headLines ds ty, some (noAttrGet g))
      | none =>
        ([contractLine ds], some (noAttrUpper (fieldOr ds "contract_type")))
    | d => ([], some (noAttrGet d))
  | v => ([], some (noAttrGet v))

/-- The whole `for option in results` loop: concatenates the blocks,
stopping at the first raise. -/
def renderContracts : List JVal → List String × Option String
  | [] => ([], none)
  | o :: rest =>
    match renderContract o with
    | (ls, some e) => (ls, some e)
    | (ls, none) =>
      match renderContracts rest with
      | (ls2, e2) => (ls ++ ls2, e2)

/-- The 80-dash separator printed by line 38 of the source. -/
def dashSep : String := String.mk (List.replicate 80 (Char.ofNat 45))

/-- The 80-equals separator printed by the driver. -/
def eqSep : String := String.mk (List.replicate 80 (Char.ofNat 61))

/-- Lines 36-38 of the source: the two header lines and the separator.
An absent key prints as the value `None`. -/
def headerLines (fs : List (String × JVal)) : List String :=
  ["Status: " ++ pyStrOpt (dget fs "status"),
   "Request ID: " ++ pyStrOpt (dget fs "request_id"),
   dashSep]

/-- `print_options_chain(data)`: the lines it prints and, when it raises,
the exception text.  The f-string on line 41 ends in an explicit newline,
so that print contributes the count line and a blank line. -/
def print_options_chain (data : JVal) : List String × Option String :=
  match data with
  | JVal.jobj fs =>
    match pyLenIter ((dget fs "results").getD (JVal.jarr [])) with
    | some nitems =>
      match renderContracts nitems.2 with
      | (ls, e) =>
        (headerLines fs ++ ["Total contracts returned: " ++ toString nitems.1, ""] ++ ls,
          e)
    | none =>
      (headerLines fs, some (noLen ((dget fs "results").getD (JVal.jarr []))))
  | v => ([], some (noAttrGet v))

/-!
The `__main__` driver (lines 73-99 of the source): hard-coded ticker
`AAPL` and filter `limit=10`; the `try` body renders then dumps the raw
document; the two `except` arms print the two error message forms.
-/

/-- JSON string escaping used by `json.dumps` (quote and backslash;
control-character escapes are not needed by any claim). -/
def jsonEscapeChar (c : Char) : String :=
  if c = Char.ofNat 34 then String.mk [Char.ofNat 92, Char.ofNat 34]
  else if c = Char.ofNat 92 then String.mk [Char.ofNat 92, Char.ofNat 92]
  else String.mk [c]

/-- Escape a whole string for a JSON dump. -/
def jsonEscape (s : String) : String :=
  String.join (s.data.map jsonEscapeChar)

/-- A run of `n` spaces. -/
def spaces (n : Nat) : String := String.mk (List.replicate n (Char.ofNat 32))

mutual

/-- `json.dumps(v, indent=2)` at a given current indentation. -/
def dumpsAt : Nat → JVal → String
  | _, JVal.jnull => "null"
  | _, JVal.jbool true => "true"
  | _, JVal.jbool false => "false"
  | _, JVal.jnum q => numStr q
  | _, JVal.jstr s => dquote ++ jsonEscape s ++ dquote
  | ind, JVal.jarr xs =>
    if xs.isEmpty then "[]"
    else "[\n" ++ dumpsArr (ind + 2) xs ++ "\n" ++ spaces ind ++ "]"
  | ind, JVal.jobj fs =>
    if fs.isEmpty then "\x7b\x7d"
    else "\x7b\n" ++ dumpsObj (ind + 2) fs ++ "\n" ++ spaces ind ++ "\x7d"

/-- The comma-and-newline separated items of a dumped list. -/
def dumpsArr : Nat → List JVal → String
  | _, [] => ""
  | ind, [x] => spaces ind ++ dumpsAt ind x
  | ind, x :: y :: ys =>
    spaces ind ++ dumpsAt ind x ++ ",\n" ++ dumpsArr ind (y :: ys)

/-- The comma-and-newline separated bindings of a dumped dict. -/
def dumpsObj : Nat → List (String × JVal) → String
  | _, [] => ""
  | ind, [(k, v)] => spaces ind ++ dquote ++ jsonEscape k ++ dquote ++ ": " ++ dumpsAt ind v
  | ind, (k, v) :: p :: ps =>
    spaces ind ++ dquote ++ jsonEscape k ++ dquote ++ ": " ++ dumpsAt ind v ++
      ",\n" ++ dumpsObj ind (p :: ps)

end

/-- `json.dumps(data, indent=2)`. -/
def pyJsonDumps (v : JVal) : String := dumpsAt 0 v

/-- The keyword filters the driver passes (line 83 of the source). -/
def driverKwargs : List (String × JVal) := [("limit", JVal.jnum 10)]

/-- The whole `__main__` block as the list of lines it prints. -/
def mainDriver (cfg : Config) (http : HttpRequest → HttpResponse)
    (parse : String → Option JVal) : List String :=
  ["Fetching options chain snapshot for AAPL...", eqSep] ++
  (match (get_options_chain_snapshot cfg http parse "AAPL" driverKwargs).2 with
   | Except.ok data =>
     match print_options_chain data with
     | (ls, none) =>
       ls ++ [eqSep, "Raw JSON Response:", eqSep] ++ (pyJsonDumps data).splitOn "\n"
     | (ls, some e) => ls ++ ["Error: " ++ e]
   | Except.error (ClientError.httpError m b) =>
     ["HTTP Error: " ++ m, "Response: " ++ b]
   | Except.error (ClientError.decodeError m) => ["Error: " ++ m])

/-- The ambient process state a Python function could in principle read:
the two environment settings and the output written so far.  The body of
`print_options_chain` (lines 34-70) references no module global and no
ambient state, so its embedding ignores this argument. -/
structure ProcessState where
  massive_api_key : Option String
  massive_base_url : Option String
  emitted : List String

/-- `print_options_chain` as run inside a process: the lines it appends to
standard output depend on nothing but its argument. -/
def print_options_chain_st (_st : ProcessState) (data : JVal) :
    List String × Option String :=
  print_options_chain data

/-!
Fixtures used by concrete instantiations of the claims.
-/

/-- A fixed successful response used by concrete instantiations. -/
def okResponse : HttpResponse :=
  ⟨200, "OK", "https://api.example/q", "raw", by decide⟩

/-- A transport stub answering every request with `okResponse`. -/
def okHttp : HttpRequest → HttpResponse := fun _ => okResponse

/-- A parsed document whose `results` sequence is empty. -/
def emptyResultsDoc : JVal :=
  JVal.jobj [("status", JVal.jstr "OK"), ("request_id", JVal.jstr "x"),
    ("results", JVal.jarr [])]

/-- A decoder stub returning `emptyResultsDoc` for every body. -/
def okParse : String → Option JVal := fun _ => some emptyResultsDoc

/-- A fixed 401 response used by concrete instantiations. -/
def unauthorizedResponse : HttpResponse :=
  ⟨401, "Unauthorized", "https://api.example/q", "bad key", by decide⟩

/-- A transport stub answering every request with `unauthorizedResponse`. -/
def unauthorizedHttp : HttpRequest → HttpResponse := fun _ => unauthorizedResponse

/-- A sub-mapping key is either absent or bound to a dict, the domain on
which the renderer's defensive `.get(k, default)` pattern is total. -/
def objOrAbsent (fs : List (String × JVal)) (k : String) : Prop :=
  dget fs k = none ∨ ∃ m, dget fs k = some (JVal.jobj m)

/-- A contract whose `contract_type` is `null`, used to instantiate C10. -/
def nullTypeContract : List (String × JVal) :=
  [("details", JVal.jobj [("contract_type", JVal.jnull)])]

/-- A contract carrying a non-empty `last_quote` and no `last_trade`,
used to instantiate C6. -/
def quoteOnlyContract : List (String × JVal) :=
  [("last_quote", JVal.jobj [("bid", JVal.jstr "5.1"), ("ask", JVal.jstr "5.3")])]

/-!
Lemmas about dict update and lookup, used for the query-parameter claims.
-/

theorem dget_dset_self (d : List (String × JVal)) (k : String) (v : JVal) :
    dget (dset d k v) k = some v := by
  induction d with
  | nil => simp [dset, dget]
  | cons p rest ih =>
    obtain ⟨k2, w⟩ := p
    by_cases h : k2 = k <;> simp [dset, dget, h, ih]

theorem dget_dset_of_ne (d : List (String × JVal)) (k k2 : String) (v : JVal)
    (h : k2 ≠ k) : dget (dset d k v) k2 = dget d k2 := by
  have hkk : ¬k = k2 := fun hh => h hh.symm
  induction d with
  | nil => simp [dset, dget, hkk]
  | cons p rest ih =>
    obtain ⟨k3, w⟩ := p
    by_cases h3 : k3 = k
    · subst h3
      simp [dset, dget, hkk]
    · by_cases h4 : k3 = k2 <;> simp [dset, dget, h3, h4, ih, h]

theorem dget_eq_none_of_not_mem (d : List (String × JVal)) (k : String)
    (h : k ∉ d.map Prod.fst) : dget d k = none := by
  induction d with
  | nil => simp [dget]
  | cons p rest ih =>
    obtain ⟨k2, w⟩ := p
    simp only [List.map_cons, List.mem_cons] at h
    push_neg at h
    have hne : ¬k2 = k := fun hh => h.1 hh.symm
    simp [dget, hne, ih h.2]

theorem dget_dictUpdate (d kvs : List (String × JVal)) (k : String)
    (h : (kvs.map Prod.fst).Nodup) :
    dget (dictUpdate d kvs) k =
      match dget kvs k with
      | some v => some v
      | none => dget d k := by
  induction kvs generalizing d with
  | nil => simp [dictUpdate, dget]
  | cons p rest ih =>
    obtain ⟨k1, v1⟩ := p
    simp only [List.map_cons, List.nodup_cons] at h
    have hfold : dictUpdate d ((k1, v1) :: rest) = dictUpdate (dset d k1 v1) rest := rfl
    rw [hfold, ih (dset d k1 v1) h.2]
    by_cases hk : k1 = k
    · subst hk
      have hnone : dget rest k1 = none :=
        dget_eq_none_of_not_mem rest k1 h.1
      simp [dget, hnone, dget_dset_self]
    · simp only [dget, if_neg hk]
      cases hrest : dget rest k with
      | some v => simp
      | none => simp [dget_dset_of_ne d k1 k v1 (fun hh => hk hh.symm)]

theorem dget_of_mem (d : List (String × JVal)) (k : String) (v : JVal)
    (hnd : (d.map Prod.fst).Nodup) (hm : (k, v) ∈ d) : dget d k = some v := by
  induction d with
  | nil => simp at hm
  | cons p rest ih =>
    obtain ⟨k2, w⟩ := p
    simp only [List.map_cons, List.nodup_cons] at hnd
    rcases List.mem_cons.mp hm with heq | hmem
    · obtain ⟨h1, h2⟩ := Prod.mk.injEq .. ▸ heq
      simp [dget, h1.symm, h2]
    · have hne : k2 ≠ k := by
        intro hh
        subst hh
        exact hnd.1 (List.mem_map.mpr ⟨(k2, v), hmem, rfl⟩)
      simp [dget, hne, ih hnd.2 hmem]

/-!
Lemmas about the line-prefix counter.
-/

theorem str_data_append (a b : String) : (a ++ b).data = a.data ++ b.data := rfl

theorem listStarts_take (p q x : List Char) :
    listStarts p (q ++ x) = true → listStarts (List.take q.length p) q = true := by
  induction q generalizing p with
  | nil => intro _; cases p <;> simp [listStarts]
  | cons b bs ih =>
    intro h
    cases p with
    | nil => simp [listStarts]
    | cons a as =>
      simp only [List.cons_append, listStarts] at h
      by_cases hab : a = b
      · simp only [List.length_cons, List.take_succ_cons, listStarts, if_pos hab]
        exact ih as (by simpa [if_pos hab] using h)
      · simp [if_neg hab] at h

theorem listStarts_mono (p q x : List Char) (h : listStarts p q = true) :
    listStarts p (q ++ x) = true := by
  induction p generalizing q with
  | nil => simp [listStarts]
  | cons a as ih =>
    cases q with
    | nil => simp [listStarts] at h
    | cons b bs =>
      simp only [listStarts] at h ⊢
      by_cases hab : a = b
      · simp only [List.cons_append, if_pos hab] at h ⊢
        exact ih bs (by simpa [if_pos hab] using h)
      · simp [if_neg hab] at h

theorem strStarts_app_false (p q : String)
    (h : listStarts (List.take q.data.length p.data) q.data = false)
    (x : String) : strStarts p (q ++ x) = false := by
  unfold strStarts
  rw [str_data_append]
  cases hls : listStarts p.data (q.data ++ x.data) with
  | false => rfl
  | true => rw [listStarts_take p.data q.data x.data hls] at h; cases h

theorem strStarts_app_true (p q : String)
    (h : listStarts p.data q.data = true) (x : String) :
    strStarts p (q ++ x) = true := by
  unfold strStarts
  rw [str_data_append]
  exact listStarts_mono p.data q.data x.data h

theorem countP_nil (p : String) : countP p [] = 0 := rfl

theorem countP_cons (p l : String) (ls : List String) :
    countP p (l :: ls) = (if strStarts p l then 1 else 0) + countP p ls := by
  by_cases h : strStarts p l <;>
    simp [countP, List.filter, h, Nat.add_comm]

theorem countP_append (p : String) (a b : List String) :
    countP p (a ++ b) = countP p a + countP p b := by
  simp [countP, List.filter_append]

/-!
Structure of a successfully rendered contract block, and the quote/trade
line characterizations.
-/

theorem renderContract_ok (fs ds gs : List (String × JVal)) (ty : String)
    (ql tl : List String)
    (hd : subMap fs "details" = JVal.jobj ds)
    (hty : pyUpper (fieldOr ds "contract_type") = some ty)
    (hg : subMap fs "greeks" = JVal.jobj gs)
    (hq : quoteLines (subMap fs "last_quote") = (ql, none))
    (ht : tradeLines (subMap fs "last_trade") = (tl, none)) :
    renderContract (JVal.jobj fs) =
      (headLines ds ty ++ greekLines gs ++ tailLines fs ++ ql ++ tl ++ [""], none) := by
  simp only [renderContract, hd, hty, hg, hq, ht]

theorem renderContract_none_shape (o : JVal) (bl : List String)
    (h : renderContract o = (bl, none)) :
    ∃ fs ds ty gs ql tl,
      o = JVal.jobj fs ∧
      subMap fs "details" = JVal.jobj ds ∧
      pyUpper (fieldOr ds "contract_type") = some ty ∧
      subMap fs "greeks" = JVal.jobj gs ∧
      quoteLines (subMap fs "last_quote") = (ql, none) ∧
      tradeLines (subMap fs "last_trade") = (tl, none) ∧
      bl = headLines ds ty ++ greekLines gs ++ tailLines fs ++ ql ++ tl ++ [""] := by
  cases o with
  | jobj fs =>
    simp only [renderContract] at h
    split at h
    case _ ds hd =>
      split at h
      case _ ty hty =>
        split at h
        case _ gs hg =>
          split at h
          case _ ql hq =>
            split at h
            case _ tl ht =>
              refine ⟨fs, ds, ty, gs, ql, tl, rfl, hd, hty, hg, hq, ht, ?_⟩
              exact ((Prod.mk.injEq _ _ _ _).mp h).1.symm
            case _ tl e ht => simp at h
          case _ ql e hq => simp at h
        case _ g hg => simp at h
      case _ hty => simp at h
    case _ d hd => simp at h
  | jnull => simp [renderContract] at h
  | jbool b => simp [renderContract] at h
  | jnum q => simp [renderContract] at h
  | jstr s => simp [renderContract] at h
  | jarr xs => simp [renderContract] at h

theorem quoteLines_none_shape (v : JVal) (ql : List String)
    (h : quoteLines v = (ql, none)) :
    (ql = [] ∧ ∀ qs : List (String × JVal), v = JVal.jobj qs → qs = []) ∨
    (∃ qs, v = JVal.jobj qs ∧ qs ≠ [] ∧ ql = [quoteLineStr qs]) := by
  by_cases htr : pyTruthy v
  · cases v with
    | jobj qs =>
      refine Or.inr ⟨qs, rfl, ?_, ?_⟩
      · simpa [pyTruthy, List.isEmpty_iff] using htr
      · simp only [quoteLines, if_pos htr] at h
        exact ((Prod.mk.injEq _ _ _ _).mp h).1.symm
    | jnull => simp [quoteLines, if_pos htr] at h
    | jbool b => simp [quoteLines, if_pos htr] at h
    | jnum q => simp [quoteLines, if_pos htr] at h
    | jstr s => simp [quoteLines, if_pos htr] at h
    | jarr xs => simp [quoteLines, if_pos htr] at h
  · simp only [quoteLines, if_neg htr] at h
    obtain rfl : ql = [] := ((Prod.mk.injEq _ _ _ _).mp h).1.symm
    refine Or.inl ⟨rfl, ?_⟩
    rintro qs rfl
    simpa [pyTruthy, List.isEmpty_iff] using htr

theorem tradeLines_none_shape (v : JVal) (tl : List String)
    (h : tradeLines v = (tl, none)) :
    (tl = [] ∧ ∀ ts : List (String × JVal), v = JVal.jobj ts → ts = []) ∨
    (∃ ts, v = JVal.jobj ts ∧ ts ≠ [] ∧ tl = [tradeLineStr ts]) := by
  by_cases htr : pyTruthy v
  · cases v with
    | jobj ts =>
      refine Or.inr ⟨ts, rfl, ?_, ?_⟩
      · simpa [pyTruthy, List.isEmpty_iff] using htr
      · simp only [tradeLines, if_pos htr] at h
        exact ((Prod.mk.injEq _ _ _ _).mp h).1.symm
    | jnull => simp [tradeLines, if_pos htr] at h
    | jbool b => simp [tradeLines, if_pos htr] at h
    | jnum q => simp [tradeLines, if_pos htr] at h
    | jstr s => simp [tradeLines, if_pos htr] at h
    | jarr xs => simp [tradeLines, if_pos htr] at h
  · simp only [tradeLines, if_neg htr] at h
    obtain rfl : tl = [] := ((Prod.mk.injEq _ _ _ _).mp h).1.symm
    refine Or.inl ⟨rfl, ?_⟩
    rintro ts rfl
    simpa [pyTruthy, List.isEmpty_iff] using htr

/-!
Line counts of the block segments for the five line prefixes the claims
inspect.
-/

theorem counts_headLines (ds : List (String × JVal)) (ty : String) :
    countP "Status: " (headLines ds ty) = 0 ∧
    countP "Request ID: " (headLines ds ty) = 0 ∧
    countP "Contract: " (headLines ds ty) = 1 ∧
    countP "  Last Quote: " (headLines ds ty) = 0 ∧
    countP "  Last Trade: " (headLines ds ty) = 0 := by
  refine ⟨?_, ?_, ?_, ?_, ?_⟩ <;>
  simp [headLines, contractLine, countP_cons, countP_nil,
    strStarts_app_false "Status: " "Contract: " (by decide),
    strStarts_app_false "Status: " "  Type: " (by decide),
    strStarts_app_false "Status: " "  Strike: $" (by decide),
    strStarts_app_false "Status: " "  Expiration: " (by decide),
    strStarts_app_false "Status: " "  Exercise Style: " (by decide),
    strStarts_app_false "Request ID: " "Contract: " (by decide),
    strStarts_app_false "Request ID: " "  Type: " (by decide),
    strStarts_app_false "Request ID: " "  Strike: $" (by decide),
    strStarts_app_false "Request ID: " "  Expiration: " (by decide),
    strStarts_app_false "Request ID: " "  Exercise Style: " (by decide),
    strStarts_app_true "Contract: " "Contract: " (by decide),
    strStarts_app_false "Contract: " "  Type: " (by decide),
    strStarts_app_false "Contract: " "  Strike: $" (by decide),
    strStarts_app_false "Contract: " "  Expiration: " (by decide),
    strStarts_app_false "Contract: " "  Exercise Style: " (by decide),
    strStarts_app_false "  Last Quote: " "Contract: " (by decide),
    strStarts_app_false "  Last Quote: " "  Type: " (by decide),
    strStarts_app_false "  Last Quote: " "  Strike: $" (by decide),
    strStarts_app_false "  Last Quote: " "  Expiration: " (by decide),
    strStarts_app_false "  Last Quote: " "  Exercise Style: " (by decide),
    strStarts_app_false "  Last Trade: " "Contract: " (by decide),
    strStarts_app_false "  Last Trade: " "  Type: " (by decide),
    strStarts_app_false "  Last Trade: " "  Strike: $" (by decide),
    strStarts_app_false "  Last Trade: " "  Expiration: " (by decide),
    strStarts_app_false "  Last Trade: " "  Exercise Style: " (by decide),
    (by decide : strStarts "Status: " "  Greeks:" = false),
    (by decide : strStarts "Request ID: " "  Greeks:" = false),
    (by decide : strStarts "Contract: " "  Greeks:" = false),
    (by decide : strStarts "  Last Quote: " "  Greeks:" = false),
    (by decide : strStarts "  Last Trade: " "  Greeks:" = false)]

theorem counts_greekLines (gs : List (String × JVal)) :
    countP "Status: " (greekLines gs) = 0 ∧
    countP "Request ID: " (greekLines gs) = 0 ∧
    countP "Contract: " (greekLines gs) = 0 ∧
    countP "  Last Quote: " (greekLines gs) = 0 ∧
    countP "  Last Trade: " (greekLines gs) = 0 := by
  refine ⟨?_, ?_, ?_, ?_, ?_⟩ <;>
  simp [greekLines, countP_cons, countP_nil,
    strStarts_app_false "Status: " "    Delta: " (by decide),
    strStarts_app_false "Status: " "    Gamma: " (by decide),
    strStarts_app_false "Status: " "    Theta: " (by decide),
    strStarts_app_false "Status: " "    Vega:  " (by decide),
    strStarts_app_false "Request ID: " "    Delta: " (by decide),
    strStarts_app_false "Request ID: " "    Gamma: " (by decide),
    strStarts_app_false "Request ID: " "    Theta: " (by decide),
    strStarts_app_false "Request ID: " "    Vega:  " (by decide),
    strStarts_app_false "Contract: " "    Delta: " (by decide),
    strStarts_app_false "Contract: " "    Gamma: " (by decide),
    strStarts_app_false "Contract: " "    Theta: " (by decide),
    strStarts_app_false "Contract: " "    Vega:  " (by decide),
    strStarts_app_false "  Last Quote: " "    Delta: " (by decide),
    strStarts_app_false "  Last Quote: " "    Gamma: " (by decide),
    strStarts_app_false "  Last Quote: " "    Theta: " (by decide),
    strStarts_app_false "  Last Quote: " "    Vega:  " (by decide),
    strStarts_app_false "  Last Trade: " "    Delta: " (by decide),
    strStarts_app_false "  Last Trade: " "    Gamma: " (by decide),
    strStarts_app_false "  Last Trade: " "    Theta: " (by decide),
    strStarts_app_false "  Last Trade: " "    Vega:  " (by decide)]

theorem counts_tailLines (fs : List (String × JVal)) :
    countP "Status: " (tailLines fs) = 0 ∧
    countP "Request ID: " (tailLines fs) = 0 ∧
    countP "Contract: " (tailLines fs) = 0 ∧
    countP "  Last Quote: " (tailLines fs) = 0 ∧
    countP "  Last Trade: " (tailLines fs) = 0 := by
  refine ⟨?_, ?_, ?_, ?_, ?_⟩ <;>
  simp [tailLines, countP_cons, countP_nil,
    strStarts_app_false "Status: " "  Implied Volatility: " (by decide),
    strStarts_app_false "Status: " "  Open Interest: " (by decide),
    strStarts_app_false "Request ID: " "  Implied Volatility: " (by decide),
    strStarts_app_false "Request ID: " "  Open Interest: " (by decide),
    strStarts_app_false "Contract: " "  Implied Volatility: " (by decide),
    strStarts_app_false "Contract: " "  Open Interest: " (by decide),
    strStarts_app_false "  Last Quote: " "  Implied Volatility: " (by decide),
    strStarts_app_false "  Last Quote: " "  Open Interest: " (by decide),
    strStarts_app_false "  Last Trade: " "  Implied Volatility: " (by decide),
    strStarts_app_false "  Last Trade: " "  Open Interest: " (by decide)]

theorem counts_quoteLine (qs : List (String × JVal)) :
    countP "Status: " [quoteLineStr qs] = 0 ∧
    countP "Request ID: " [quoteLineStr qs] = 0 ∧
    countP "Contract: " [quoteLineStr qs] = 0 ∧
    countP "  Last Quote: " [quoteLineStr qs] = 1 ∧
    countP "  Last Trade: " [quoteLineStr qs] = 0 := by
  refine ⟨?_, ?_, ?_, ?_, ?_⟩ <;>
  simp [quoteLineStr, countP_cons, countP_nil,
    strStarts_app_false "Status: " "  Last Quote: Bid $" (by decide),
    strStarts_app_false "Request ID: " "  Last Quote: Bid $" (by decide),
    strStarts_app_false "Contract: " "  Last Quote: Bid $" (by decide),
    strStarts_app_true "  Last Quote: " "  Last Quote: Bid $" (by decide),
    strStarts_app_false "  Last Trade: " "  Last Quote: Bid $" (by decide)]

theorem counts_tradeLine (ts : List (String × JVal)) :
    countP "Status: " [tradeLineStr ts] = 0 ∧
    countP "Request ID: " [tradeLineStr ts] = 0 ∧
    countP "Contract: " [tradeLineStr ts] = 0 ∧
    countP "  Last Quote: " [tradeLineStr ts] = 0 ∧
    countP "  Last Trade: " [tradeLineStr ts] = 1 := by
  refine ⟨?_, ?_, ?_, ?_, ?_⟩ <;>
  simp [tradeLineStr, countP_cons, countP_nil,
    strStarts_app_false "Status: " "  Last Trade: $" (by decide),
    strStarts_app_false "Request ID: " "  Last Trade: $" (by decide),
    strStarts_app_false "Contract: " "  Last Trade: $" (by decide),
    strStarts_app_false "  Last Quote: " "  Last Trade: $" (by decide),
    strStarts_app_true "  Last Trade: " "  Last Trade: $" (by decide)]

theorem counts_blank :
    countP "Status: " [""] = 0 ∧
    countP "Request ID: " [""] = 0 ∧
    countP "Contract: " [""] = 0 ∧
    countP "  Last Quote: " [""] = 0 ∧
    countP "  Last Trade: " [""] = 0 := by
  refine ⟨?_, ?_, ?_, ?_, ?_⟩ <;> decide

theorem renderContract_counts (o : JVal) (bl : List String)
    (h : renderContract o = (bl, none)) :
    countP "Status: " bl = 0 ∧ countP "Request ID: " bl = 0 ∧
    countP "Contract: " bl = 1 := by
  obtain ⟨fs, ds, ty, gs, ql, tl, ho, hd, hty, hg, hq, ht, hbl⟩ :=
    renderContract_none_shape o bl h
  subst hbl
  obtain ⟨s1, r1, c1, -, -⟩ := counts_headLines ds ty
  obtain ⟨s2, r2, c2, -, -⟩ := counts_greekLines gs
  obtain ⟨s3, r3, c3, -, -⟩ := counts_tailLines fs
  obtain ⟨sb, rb, cb, -, -⟩ := counts_blank
  have hql : countP "Status: " ql = 0 ∧ countP "Request ID: " ql = 0 ∧
      countP "Contract: " ql = 0 := by
    rcases quoteLines_none_shape _ _ hq with ⟨rfl, -⟩ | ⟨qs, -, -, rfl⟩
    · exact ⟨rfl, rfl, rfl⟩
    · obtain ⟨a, b, c, -, -⟩ := counts_quoteLine qs
      exact ⟨a, b, c⟩
  have htl2 : countP "Status: " tl = 0 ∧ countP "Request ID: " tl = 0 ∧
      countP "Contract: " tl = 0 := by
    rcases tradeLines_none_shape _ _ ht with ⟨rfl, -⟩ | ⟨ts, -, -, rfl⟩
    · exact ⟨rfl, rfl, rfl⟩
    · obtain ⟨a, b, c, -, -⟩ := counts_tradeLine ts
      exact ⟨a, b, c⟩
  refine ⟨?_, ?_, ?_⟩ <;>
  simp [countP_append, s1, r1, c1, s2, r2, c2, s3, r3, c3, sb, rb, cb,
    hql.1, hql.2.1, hql.2.2, htl2.1, htl2.2.1, htl2.2.2]

theorem renderContracts_counts (rs : List JVal) (ls : List String)
    (h : renderContracts rs = (ls, none)) :
    countP "Status: " ls = 0 ∧ countP "Request ID: " ls = 0 ∧
    countP "Contract: " ls = rs.length := by
  induction rs generalizing ls with
  | nil =>
    simp only [renderContracts, Prod.mk.injEq] at h
    obtain ⟨rfl, -⟩ := h
    exact ⟨rfl, rfl, rfl⟩
  | cons o rest ih =>
    simp only [renderContracts] at h
    cases hro : renderContract o with
    | mk bl e =>
      rw [hro] at h
      cases e with
      | some ex => simp at h
      | none =>
        cases hrr : renderContracts rest with
        | mk ls2 e2 =>
          rw [hrr] at h
          obtain ⟨rfl, rfl⟩ : bl ++ ls2 = ls ∧ e2 = none := by
            simpa using h
          obtain ⟨a1, b1, c1⟩ := renderContract_counts o bl hro
          obtain ⟨a2, b2, c2⟩ := ih ls2 hrr
          refine ⟨?_, ?_, ?_⟩ <;>
          simp [countP_append, a1, b1, c1, a2, b2, c2, Nat.add_comm]

theorem renderContracts_err (rs : List JVal) (o : JVal) (ho : o ∈ rs)
    (he : (renderContract o).2 ≠ none) : (renderContracts rs).2 ≠ none := by
  induction rs with
  | nil => simp at ho
  | cons a rest ih =>
    rcases List.mem_cons.mp ho with rfl | hmem
    · simp only [renderContracts]
      cases hro : renderContract o with
      | mk bl e =>
        cases e with
        | none => rw [hro] at he; simp at he
        | some ex => simp
    · simp only [renderContracts]
      cases hra : renderContract a with
      | mk bl e =>
        cases e with
        | some ex => simp
        | none =>
          cases hrr : renderContracts rest with
          | mk ls2 e2 =>
            have hrest := ih hmem
            rw [hrr] at hrest
            simpa using hrest

/-!
Top-level structure of the rendered output.
-/

theorem counts_headerLines (fs : List (String × JVal)) :
    countP "Status: " (headerLines fs) = 1 ∧
    countP "Request ID: " (headerLines fs) = 1 ∧
    countP "Contract: " (headerLines fs) = 0 := by
  refine ⟨?_, ?_, ?_⟩ <;>
  (simp [headerLines, dashSep, countP_cons, countP_nil,
    strStarts_app_true "Status: " "Status: " (by decide),
    strStarts_app_false "Status: " "Request ID: " (by decide),
    strStarts_app_false "Request ID: " "Status: " (by decide),
    strStarts_app_true "Request ID: " "Request ID: " (by decide),
    strStarts_app_false "Contract: " "Status: " (by decide),
    strStarts_app_false "Contract: " "Request ID: " (by decide)]
   decide)

theorem counts_totalLine (n : Nat) :
    countP "Status: " ["Total contracts returned: " ++ toString n, ""] = 0 ∧
    countP "Request ID: " ["Total contracts returned: " ++ toString n, ""] = 0 ∧
    countP "Contract: " ["Total contracts returned: " ++ toString n, ""] = 0 := by
  refine ⟨?_, ?_, ?_⟩ <;>
  simp [countP_cons, countP_nil,
    strStarts_app_false "Status: " "Total contracts returned: " (by decide),
    strStarts_app_false "Request ID: " "Total contracts returned: " (by decide),
    strStarts_app_false "Contract: " "Total contracts returned: " (by decide),
    (by decide : strStarts "Status: " "" = false),
    (by decide : strStarts "Request ID: " "" = false),
    (by decide : strStarts "Contract: " "" = false)]

theorem print_options_chain_obj (fs : List (String × JVal))
    (nitems : Nat × List JVal)
    (hlen : pyLenIter ((dget fs "results").getD (JVal.jarr [])) = some nitems)
    (ls : List String) (e : Option String)
    (hrc : renderContracts nitems.2 = (ls, e)) :
    print_options_chain (JVal.jobj fs) =
      (headerLines fs ++ ["Total contracts returned: " ++ toString nitems.1, ""] ++ ls,
        e) := by
  simp only [print_options_chain, hlen, hrc]


/-- C1.  The claim quantifies over every filter mapping and asserts that the
issued query parameters bind `apiKey` to the configured key.  A filter
literally named `apiKey` overwrites that binding (`params.update(kwargs)`
runs after the key is set), so with configured key `secret` and the filter
`apiKey=other` the issued request binds `apiKey` to `other`, not to the
configured `secret`. -/
theorem c1_apiKey_binding_counterexample :
    (get_options_chain_snapshot ⟨"secret", "https://api.example"⟩ okHttp okParse
        "AAPL" [("apiKey", JVal.jstr "other")]).1.map (fun r => dget r.params "apiKey") =
      [some (JVal.jstr "other")] ∧
    some (JVal.jstr "other") ≠ some (JVal.jstr "secret") :=
  ⟨rfl, fun h => absurd (JVal.jstr.inj (Option.some.inj h)) (by decide)⟩

/-- C1 (amended).  For every ticker and filter mapping, exactly one GET is
issued; its URL is `base_url ++ "/snapshot/options/" ++ underlying` with
the underlying inserted verbatim; every supplied filter appears in the
query parameters under its given name; and whenever no filter is named
`apiKey`, the parameters bind `apiKey` to the configured API key. -/
theorem c1_amended_one_get_url_and_params (cfg : Config)
    (http : HttpRequest → HttpResponse) (parse : String → Option JVal)
    (u : String) (kwargs : List (String × JVal))
    (hnd : (kwargs.map Prod.fst).Nodup) :
    (get_options_chain_snapshot cfg http parse u kwargs).1.length = 1 ∧
    ∀ r ∈ (get_options_chain_snapshot cfg http parse u kwargs).1,
      r.method = "GET" ∧
      r.url = cfg.base_url ++ "/snapshot/options/" ++ u ∧
      (∀ kv ∈ kwargs, dget r.params kv.1 = some kv.2) ∧
      (dget kwargs "apiKey" = none →
        dget r.params "apiKey" = some (JVal.jstr cfg.api_key)) := by
  refine ⟨rfl, ?_⟩
  intro r hr
  have hreq : r = issuedRequest cfg u kwargs := by
    simpa [get_options_chain_snapshot] using hr
  subst hreq
  refine ⟨rfl, rfl, ?_, ?_⟩
  · intro kv hkv
    have hku : dget kwargs kv.1 = some kv.2 :=
      dget_of_mem kwargs kv.1 kv.2 hnd (by simpa using hkv)
    show dget (dictUpdate [("apiKey", JVal.jstr cfg.api_key)] kwargs) kv.1 = some kv.2
    rw [dget_dictUpdate _ _ _ hnd, hku]
  · intro hnone
    show dget (dictUpdate [("apiKey", JVal.jstr cfg.api_key)] kwargs) "apiKey" =
      some (JVal.jstr cfg.api_key)
    rw [dget_dictUpdate _ _ _ hnd, hnone]
    simp [dget]

/-- Witness for the amended C1 at the driver's own filter mapping. -/
theorem c1_amended_witness :
    (get_options_chain_snapshot ⟨"secret", "https://api.example"⟩ okHttp okParse
        "AAPL" driverKwargs).1.length = 1 ∧
    ∀ r ∈ (get_options_chain_snapshot ⟨"secret", "https://api.example"⟩ okHttp okParse
        "AAPL" driverKwargs).1,
      r.method = "GET" ∧
      r.url = "https://api.example" ++ "/snapshot/options/" ++ "AAPL" ∧
      (∀ kv ∈ driverKwargs, dget r.params kv.1 = some kv.2) ∧
      (dget driverKwargs "apiKey" = none →
        dget r.params "apiKey" = some (JVal.jstr "secret")) :=
  c1_amended_one_get_url_and_params ⟨"secret", "https://api.example"⟩ okHttp okParse
    "AAPL" driverKwargs (by decide)

/-- C8.  When the caller supplies a filter literally named `apiKey`, the
issued query parameters bind `apiKey` to the supplied filter value: the
merge of the filter mapping runs after the configured key is set, so the
caller's binding wins. -/
theorem c8_apiKey_filter_overrides_config (cfg : Config)
    (http : HttpRequest → HttpResponse) (parse : String → Option JVal)
    (u : String) (kwargs : List (String × JVal)) (v : JVal)
    (hnd : (kwargs.map Prod.fst).Nodup)
    (hmem : ("apiKey", v) ∈ kwargs) :
    ∀ r ∈ (get_options_chain_snapshot cfg http parse u kwargs).1,
      dget r.params "apiKey" = some v := by
  intro r hr
  have hreq : r = issuedRequest cfg u kwargs := by
    simpa [get_options_chain_snapshot] using hr
  subst hreq
  have hku : dget kwargs "apiKey" = some v := dget_of_mem kwargs "apiKey" v hnd hmem
  show dget (dictUpdate [("apiKey", JVal.jstr cfg.api_key)] kwargs) "apiKey" = some v
  rw [dget_dictUpdate _ _ _ hnd, hku]

/-- Witness for C8 with the filter `apiKey=override` against the
configured key `secret`: the one issued request binds `apiKey` to the
caller's value. -/
theorem c8_witness :
    dget (issuedRequest ⟨"secret", "https://api.example"⟩ "AAPL"
        [("apiKey", JVal.jstr "override")]).params "apiKey" =
      some (JVal.jstr "override") :=
  c8_apiKey_filter_overrides_config ⟨"secret", "https://api.example"⟩ okHttp okParse
    "AAPL" [("apiKey", JVal.jstr "override")] (JVal.jstr "override")
    (by decide) (List.mem_singleton.mpr rfl)
    (issuedRequest ⟨"secret", "https://api.example"⟩ "AAPL"
      [("apiKey", JVal.jstr "override")])
    (List.mem_singleton.mpr rfl)

/-- C3.  On a 2xx status with a body the decoder accepts, the client
returns the decoded document unchanged — whatever the document is, in
particular one whose `results` sequence is empty. -/
theorem c3_success_returns_parsed_document (cfg : Config)
    (http : HttpRequest → HttpResponse) (parse : String → Option JVal)
    (u : String) (kwargs : List (String × JVal)) (doc : JVal)
    (h2 : 200 ≤ (http (issuedRequest cfg u kwargs)).status)
    (h3 : (http (issuedRequest cfg u kwargs)).status < 300)
    (hp : parse (http (issuedRequest cfg u kwargs)).body = some doc) :
    (get_options_chain_snapshot cfg http parse u kwargs).2 = Except.ok doc := by
  have hn1 : ¬(400 ≤ (http (issuedRequest cfg u kwargs)).status ∧
      (http (issuedRequest cfg u kwargs)).status < 500) := by omega
  have hn2 : ¬(500 ≤ (http (issuedRequest cfg u kwargs)).status ∧
      (http (issuedRequest cfg u kwargs)).status < 600) := by omega
  simp [get_options_chain_snapshot, raise_for_status, httpErrorMsg, hn1, hn2, hp]

/-- Witness for C3: a 200 response whose decoded document has an empty
`results` sequence is returned as-is. -/
theorem c3_witness :
    (get_options_chain_snapshot ⟨"secret", "https://api.example"⟩ okHttp okParse
        "AAPL" driverKwargs).2 = Except.ok emptyResultsDoc :=
  c3_success_returns_parsed_document ⟨"secret", "https://api.example"⟩ okHttp okParse
    "AAPL" driverKwargs emptyResultsDoc (by decide) (by decide) rfl

/-- C2.  On a 4xx or 5xx upstream status (`raise_for_status` raises for the
two HTTP error ranges; codes 600 and above are not HTTP statuses), the
client fails with an `HTTPError` carrying the response body text, and the
driver prints `HTTP Error: ...` followed by `Response: ...` and renders no
contract block. -/
theorem c2_http_error_is_reported (cfg : Config)
    (http : HttpRequest → HttpResponse) (parse : String → Option JVal)
    (h4 : 400 ≤ (http (issuedRequest cfg "AAPL" driverKwargs)).status) :
    ∃ m, httpErrorMsg (http (issuedRequest cfg "AAPL" driverKwargs)) = some m ∧
      (get_options_chain_snapshot cfg http parse "AAPL" driverKwargs).2 =
        Except.error (ClientError.httpError m
          (http (issuedRequest cfg "AAPL" driverKwargs)).body) ∧
      mainDriver cfg http parse =
        ["Fetching options chain snapshot for AAPL...", eqSep,
         "HTTP Error: " ++ m,
         "Response: " ++ (http (issuedRequest cfg "AAPL" driverKwargs)).body] ∧
      countP "Contract: " (mainDriver cfg http parse) = 0 := by
  have h6 := (http (issuedRequest cfg "AAPL" driverKwargs)).status_lt
  obtain ⟨m, hm⟩ : ∃ m, httpErrorMsg (http (issuedRequest cfg "AAPL" driverKwargs)) = some m := by
    unfold httpErrorMsg
    by_cases h5 : (http (issuedRequest cfg "AAPL" driverKwargs)).status < 500
    · exact ⟨_, by rw [if_pos ⟨h4, h5⟩]⟩
    · exact ⟨_, by rw [if_neg (fun hh => h5 hh.2), if_pos ⟨by omega, h6⟩]⟩
  have hget : (get_options_chain_snapshot cfg http parse "AAPL" driverKwargs).2 =
      Except.error (ClientError.httpError m
        (http (issuedRequest cfg "AAPL" driverKwargs)).body) := by
    simp [get_options_chain_snapshot, raise_for_status, hm]
  have hmain : mainDriver cfg http parse =
      ["Fetching options chain snapshot for AAPL...", eqSep,
       "HTTP Error: " ++ m,
       "Response: " ++ (http (issuedRequest cfg "AAPL" driverKwargs)).body] := by
    simp [mainDriver, hget]
  refine ⟨m, hm, hget, hmain, ?_⟩
  rw [hmain]
  simp [countP_cons, countP_nil,
    strStarts_app_false "Contract: " "HTTP Error: " (by decide),
    strStarts_app_false "Contract: " "Response: " (by decide),
    (by decide : strStarts "Contract: " "Fetching options chain snapshot for AAPL..." = false),
    (by decide : strStarts "Contract: " eqSep = false)]

/-- Witness for C2 at a concrete 401 response. -/
theorem c2_witness :
    ∃ m, httpErrorMsg (unauthorizedHttp (issuedRequest ⟨"secret", "https://api.example"⟩
        "AAPL" driverKwargs)) = some m ∧
      (get_options_chain_snapshot ⟨"secret", "https://api.example"⟩ unauthorizedHttp okParse
        "AAPL" driverKwargs).2 =
        Except.error (ClientError.httpError m
          (unauthorizedHttp (issuedRequest ⟨"secret", "https://api.example"⟩
            "AAPL" driverKwargs)).body) ∧
      mainDriver ⟨"secret", "https://api.example"⟩ unauthorizedHttp okParse =
        ["Fetching options chain snapshot for AAPL...", eqSep,
         "HTTP Error: " ++ m,
         "Response: " ++ (unauthorizedHttp (issuedRequest ⟨"secret", "https://api.example"⟩
            "AAPL" driverKwargs)).body] ∧
      countP "Contract: " (mainDriver ⟨"secret", "https://api.example"⟩ unauthorizedHttp okParse) = 0 :=
  c2_http_error_is_reported ⟨"secret", "https://api.example"⟩ unauthorizedHttp okParse
    (by decide)


theorem subMap_obj_nonempty (fs : List (String × JVal)) (k : String)
    (qs : List (String × JVal)) (h : subMap fs k = JVal.jobj qs)
    (hne : qs ≠ []) : dget fs k = some (JVal.jobj qs) := by
  unfold subMap at h
  cases hd : dget fs k with
  | none =>
    rw [hd] at h
    simp only [Option.getD_none] at h
    exact absurd (JVal.jobj.inj h).symm hne
  | some w =>
    rw [hd] at h
    simpa using h

/-- C5 (claim theorem).  A successful render prints exactly one `Status:`
line, exactly one `Request ID:` line, and one `Contract:` block head per
element of the `results` sequence (zero when `results` is absent). -/
theorem c5_header_once_blocks_match_results (fs : List (String × JVal))
    (rs : List JVal) (out : List String)
    (hres : dget fs "results" = some (JVal.jarr rs) ∨
      (dget fs "results" = none ∧ rs = []))
    (hok : print_options_chain (JVal.jobj fs) = (out, none)) :
    countP "Status: " out = 1 ∧ countP "Request ID: " out = 1 ∧
    countP "Contract: " out = rs.length := by
  have hgetd : (dget fs "results").getD (JVal.jarr []) = JVal.jarr rs := by
    rcases hres with h | ⟨h, rfl⟩ <;> simp [h]
  have hlen : pyLenIter ((dget fs "results").getD (JVal.jarr [])) =
      some (rs.length, rs) := by rw [hgetd]; rfl
  cases hrc : renderContracts rs with
  | mk ls e =>
    have hpr := print_options_chain_obj fs (rs.length, rs) hlen ls e hrc
    rw [hpr] at hok
    obtain ⟨rfl, rfl⟩ : headerLines fs ++
        ["Total contracts returned: " ++ toString rs.length, ""] ++ ls = out ∧
        e = none := by simpa using hok
    obtain ⟨a1, b1, c1⟩ := counts_headerLines fs
    obtain ⟨a3, b3, c3⟩ := renderContracts_counts rs ls hrc
    refine ⟨?_, ?_, ?_⟩ <;>
    simp [countP_append, countP_cons, a1, b1, c1, a3, b3, c3,
      strStarts_app_false "Status: " "Total contracts returned: " (by decide),
      strStarts_app_false "Request ID: " "Total contracts returned: " (by decide),
      strStarts_app_false "Contract: " "Total contracts returned: " (by decide),
      (by decide : strStarts "Status: " "" = false),
      (by decide : strStarts "Request ID: " "" = false),
      (by decide : strStarts "Contract: " "" = false)]

/-- Witness for C5 at the empty document: no `results` key, zero blocks. -/
theorem c5_witness :
    countP "Status: " (print_options_chain (JVal.jobj [])).1 = 1 ∧
    countP "Request ID: " (print_options_chain (JVal.jobj [])).1 = 1 ∧
    countP "Contract: " (print_options_chain (JVal.jobj [])).1 =
      ([] : List JVal).length :=
  c5_header_once_blocks_match_results [] [] (print_options_chain (JVal.jobj [])).1
    (Or.inr ⟨rfl, rfl⟩) rfl

/-- C9 (claim theorem).  An absent top-level `status` or `request_id` key
renders its header line with the literal `None` (not the `N/A` sentinel):
`data.get` with no default yields the value `None`. -/
theorem c9_absent_header_fields_render_None (fs : List (String × JVal)) :
    (dget fs "status" = none →
      ∃ rest, (print_options_chain (JVal.jobj fs)).1 = "Status: None" :: rest) ∧
    (dget fs "request_id" = none →
      ∃ l rest, (print_options_chain (JVal.jobj fs)).1 =
        l :: "Request ID: None" :: rest) := by
  obtain ⟨rest2, hpr⟩ : ∃ rest2,
      (print_options_chain (JVal.jobj fs)).1 = headerLines fs ++ rest2 := by
    unfold print_options_chain
    cases hlen : pyLenIter ((dget fs "results").getD (JVal.jarr [])) with
    | none => exact ⟨[], by simp [hlen]⟩
    | some nitems =>
      exact ⟨("Total contracts returned: " ++ toString nitems.1) :: "" ::
        (renderContracts nitems.2).1, by simp [hlen]⟩
  constructor
  · intro h
    refine ⟨("Request ID: " ++ pyStrOpt (dget fs "request_id")) :: dashSep :: rest2, ?_⟩
    rw [hpr]
    simp only [headerLines, List.cons_append, List.nil_append, h]
    rfl
  · intro h
    refine ⟨"Status: " ++ pyStrOpt (dget fs "status"), dashSep :: rest2, ?_⟩
    rw [hpr]
    simp only [headerLines, List.cons_append, List.nil_append, h]
    rfl

/-- Witness for C9 at the empty document. -/
theorem c9_witness :
    (∃ rest, (print_options_chain (JVal.jobj [])).1 = "Status: None" :: rest) ∧
    (∃ l rest, (print_options_chain (JVal.jobj [])).1 =
      l :: "Request ID: None" :: rest) :=
  ⟨(c9_absent_header_fields_render_None []).1 rfl,
   (c9_absent_header_fields_render_None []).2 rfl⟩

/-- C7 (claim theorem).  The renderer reads no ambient state: run in any
two process states on the same document it emits exactly the same text,
so equal documents always render identically. -/
theorem c7_renderer_deterministic (s1 s2 : ProcessState) (d : JVal) :
    print_options_chain_st s1 d = print_options_chain_st s2 d := rfl

/-- C10 (claim theorem).  A contract whose `details.contract_type` is
present but not a string makes the `.upper()` call raise, so the block
aborts with an `AttributeError` and the whole render fails. -/
theorem c10_nonstring_contract_type_aborts (fs cfs ds : List (String × JVal))
    (v : JVal) (rs : List JVal)
    (hres : dget fs "results" = some (JVal.jarr rs))
    (hmem : JVal.jobj cfs ∈ rs)
    (hd : dget cfs "details" = some (JVal.jobj ds))
    (hct : dget ds "contract_type" = some v)
    (hns : ∀ s, v ≠ JVal.jstr s) :
    (renderContract (JVal.jobj cfs)).2 = some (noAttrUpper v) ∧
    (print_options_chain (JVal.jobj fs)).2 ≠ none := by
  have h1 : subMap cfs "details" = JVal.jobj ds := by simp [subMap, hd]
  have h2 : fieldOr ds "contract_type" = v := by simp [fieldOr, hct]
  have hpu : pyUpper v = none := by
    cases v with
    | jstr s => exact absurd rfl (hns s)
    | jnull => rfl
    | jbool b => rfl
    | jnum q => rfl
    | jarr xs => rfl
    | jobj m => rfl
  have hrc : renderContract (JVal.jobj cfs) =
      ([contractLine ds], some (noAttrUpper v)) := by
    simp only [renderContract, h1, h2, hpu]
  refine ⟨by rw [hrc], ?_⟩
  have hrc2 : (renderContract (JVal.jobj cfs)).2 ≠ none := by
    rw [hrc]
    simp
  have herr := renderContracts_err rs (JVal.jobj cfs) hmem hrc2
  have hlen : pyLenIter ((dget fs "results").getD (JVal.jarr [])) =
      some (rs.length, rs) := by rw [hres]; rfl
  cases hrr : renderContracts rs with
  | mk ls e =>
    have hpr := print_options_chain_obj fs (rs.length, rs) hlen ls e hrr
    rw [hpr]
    rw [hrr] at herr
    simpa using herr


/-- Witness for C10: a `null` contract type aborts the render. -/
theorem c10_witness :
    (renderContract (JVal.jobj nullTypeContract)).2 =
      some (noAttrUpper JVal.jnull) ∧
    (print_options_chain (JVal.jobj
      [("results", JVal.jarr [JVal.jobj nullTypeContract])])).2 ≠ none :=
  c10_nonstring_contract_type_aborts
    [("results", JVal.jarr [JVal.jobj nullTypeContract])]
    nullTypeContract [("contract_type", JVal.jnull)] JVal.jnull
    [JVal.jobj nullTypeContract] rfl (List.mem_singleton.mpr rfl) rfl rfl
    (fun _ h => JVal.noConfusion h)

/-- C6 (claim theorem).  In a successfully rendered block, a `Last Quote:`
line appears exactly when the contract's `last_quote` sub-mapping is
present and non-empty (a present-but-empty dict is falsy and prints
nothing), and symmetrically for `Last Trade:`. -/
theorem c6_last_quote_trade_iff_nonempty (fs : List (String × JVal))
    (ls : List String)
    (h : renderContract (JVal.jobj fs) = (ls, none)) :
    (countP "  Last Quote: " ls = 1 ↔
      ∃ qs, dget fs "last_quote" = some (JVal.jobj qs) ∧ qs ≠ []) ∧
    (countP "  Last Trade: " ls = 1 ↔
      ∃ ts, dget fs "last_trade" = some (JVal.jobj ts) ∧ ts ≠ []) := by
  obtain ⟨fs2, ds, ty, gs, ql, tl, hfs, hd, hty, hg, hq, ht, hbl⟩ :=
    renderContract_none_shape _ _ h
  obtain rfl : fs = fs2 := JVal.jobj.inj hfs
  subst hbl
  have hhq := (counts_headLines ds ty).2.2.2.1
  have hht := (counts_headLines ds ty).2.2.2.2
  have hgq := (counts_greekLines gs).2.2.2.1
  have hgt := (counts_greekLines gs).2.2.2.2
  have htq := (counts_tailLines fs).2.2.2.1
  have htt := (counts_tailLines fs).2.2.2.2
  have hbq := counts_blank.2.2.2.1
  have hbt := counts_blank.2.2.2.2
  have htl_q : countP "  Last Quote: " tl = 0 := by
    rcases tradeLines_none_shape _ _ ht with ⟨rfl, -⟩ | ⟨ts, -, -, rfl⟩
    · rfl
    · exact (counts_tradeLine ts).2.2.2.1
  have hql_t : countP "  Last Trade: " ql = 0 := by
    rcases quoteLines_none_shape _ _ hq with ⟨rfl, -⟩ | ⟨qs, -, -, rfl⟩
    · rfl
    · exact (counts_quoteLine qs).2.2.2.2
  have hqla : countP "  Last Quote: " ql = 1 ↔
      ∃ qs, dget fs "last_quote" = some (JVal.jobj qs) ∧ qs ≠ [] := by
    rcases quoteLines_none_shape _ _ hq with ⟨rfl, hfall⟩ | ⟨qs, hveq, hqne, rfl⟩
    · simp only [countP_nil]
      constructor
      · omega
      · rintro ⟨qs, hdq, hne⟩
        have hsub : subMap fs "last_quote" = JVal.jobj qs := by simp [subMap, hdq]
        exact absurd (hfall qs hsub) hne
    · constructor
      · intro _
        exact ⟨qs, subMap_obj_nonempty fs "last_quote" qs hveq hqne, hqne⟩
      · intro _
        exact (counts_quoteLine qs).2.2.2.1
  have htla : countP "  Last Trade: " tl = 1 ↔
      ∃ ts, dget fs "last_trade" = some (JVal.jobj ts) ∧ ts ≠ [] := by
    rcases tradeLines_none_shape _ _ ht with ⟨rfl, hfall⟩ | ⟨ts, hveq, htne, rfl⟩
    · simp only [countP_nil]
      constructor
      · omega
      · rintro ⟨ts, hdt, hne⟩
        have hsub : subMap fs "last_trade" = JVal.jobj ts := by simp [subMap, hdt]
        exact absurd (hfall ts hsub) hne
    · constructor
      · intro _
        exact ⟨ts, subMap_obj_nonempty fs "last_trade" ts hveq htne, htne⟩
      · intro _
        exact (counts_tradeLine ts).2.2.2.2
  constructor
  · rw [show countP "  Last Quote: "
        (headLines ds ty ++ greekLines gs ++ tailLines fs ++ ql ++ tl ++ [""]) =
        countP "  Last Quote: " ql by
      simp [countP_append, hhq, hgq, htq, htl_q, hbq]]
    exact hqla
  · rw [show countP "  Last Trade: "
        (headLines ds ty ++ greekLines gs ++ tailLines fs ++ ql ++ tl ++ [""]) =
        countP "  Last Trade: " tl by
      simp [countP_append, hht, hgt, htt, hql_t, hbt]]
    exact htla


/-- Witness for C6 at a contract with a quote and no trade. -/
theorem c6_witness :
    (countP "  Last Quote: " (renderContract (JVal.jobj quoteOnlyContract)).1 = 1 ↔
      ∃ qs, dget quoteOnlyContract "last_quote" = some (JVal.jobj qs) ∧ qs ≠ []) ∧
    (countP "  Last Trade: " (renderContract (JVal.jobj quoteOnlyContract)).1 = 1 ↔
      ∃ ts, dget quoteOnlyContract "last_trade" = some (JVal.jobj ts) ∧ ts ≠ []) :=
  c6_last_quote_trade_iff_nonempty quoteOnlyContract
    (renderContract (JVal.jobj quoteOnlyContract)).1 rfl

/-- C4 (claim theorem).  For a contract whose optional sub-mappings are
dicts when present and whose `contract_type` is a string when present,
the block renders without an error; every fixed field whose key (or whose
enclosing sub-mapping) is absent prints the sentinel `N/A`; and a present
`contract_type` prints uppercased. -/
theorem c4_absent_fields_render_NA (fs : List (String × JVal))
    (hd : objOrAbsent fs "details") (hg : objOrAbsent fs "greeks")
    (hq : objOrAbsent fs "last_quote") (ht : objOrAbsent fs "last_trade")
    (hct : subField fs "details" "contract_type" = none ∨
      ∃ s, subField fs "details" "contract_type" = some (JVal.jstr s)) :
    (renderContract (JVal.jobj fs)).2 = none ∧
    (subField fs "details" "ticker" = none →
      "Contract: N/A" ∈ (renderContract (JVal.jobj fs)).1) ∧
    (subField fs "details" "contract_type" = none →
      "  Type: N/A" ∈ (renderContract (JVal.jobj fs)).1) ∧
    (∀ s, subField fs "details" "contract_type" = some (JVal.jstr s) →
      ("  Type: " ++ upperStr s) ∈ (renderContract (JVal.jobj fs)).1) ∧
    (subField fs "details" "strike_price" = none →
      "  Strike: $N/A" ∈ (renderContract (JVal.jobj fs)).1) ∧
    (subField fs "details" "expiration_date" = none →
      "  Expiration: N/A" ∈ (renderContract (JVal.jobj fs)).1) ∧
    (subField fs "details" "exercise_style" = none →
      "  Exercise Style: N/A" ∈ (renderContract (JVal.jobj fs)).1) ∧
    (subField fs "greeks" "delta" = none →
      "    Delta: N/A" ∈ (renderContract (JVal.jobj fs)).1) ∧
    (subField fs "greeks" "gamma" = none →
      "    Gamma: N/A" ∈ (renderContract (JVal.jobj fs)).1) ∧
    (subField fs "greeks" "theta" = none →
      "    Theta: N/A" ∈ (renderContract (JVal.jobj fs)).1) ∧
    (subField fs "greeks" "vega" = none →
      "    Vega:  N/A" ∈ (renderContract (JVal.jobj fs)).1) ∧
    (dget fs "implied_volatility" = none →
      "  Implied Volatility: N/A" ∈ (renderContract (JVal.jobj fs)).1) ∧
    (dget fs "open_interest" = none →
      "  Open Interest: N/A" ∈ (renderContract (JVal.jobj fs)).1) := by
  obtain ⟨ds, hds, hdf⟩ : ∃ ds, subMap fs "details" = JVal.jobj ds ∧
      ∀ k, subField fs "details" k = dget ds k := by
    rcases hd with h | ⟨m, h⟩
    · exact ⟨[], by simp [subMap, h], fun k => by simp [subField, h, dget]⟩
    · exact ⟨m, by simp [subMap, h], fun k => by simp [subField, h]⟩
  obtain ⟨gs, hgs, hgf⟩ : ∃ gs, subMap fs "greeks" = JVal.jobj gs ∧
      ∀ k, subField fs "greeks" k = dget gs k := by
    rcases hg with h | ⟨m, h⟩
    · exact ⟨[], by simp [subMap, h], fun k => by simp [subField, h, dget]⟩
    · exact ⟨m, by simp [subMap, h], fun k => by simp [subField, h]⟩
  obtain ⟨ty, hty⟩ : ∃ ty, pyUpper (fieldOr ds "contract_type") = some ty := by
    rcases hct with h | ⟨s, h⟩
    · rw [hdf] at h
      exact ⟨upperStr "N/A", by simp [fieldOr, h, pyUpper]⟩
    · rw [hdf] at h
      exact ⟨upperStr s, by simp [fieldOr, h, pyUpper]⟩
  obtain ⟨ql, hql⟩ : ∃ ql, quoteLines (subMap fs "last_quote") = (ql, none) := by
    rcases hq with h | ⟨m, h⟩
    · exact ⟨[], by simp [subMap, h, quoteLines, pyTruthy]⟩
    · have hsub : subMap fs "last_quote" = JVal.jobj m := by simp [subMap, h]
      rw [hsub]
      by_cases hm : pyTruthy (JVal.jobj m)
      · exact ⟨[quoteLineStr m], by simp [quoteLines, hm]⟩
      · exact ⟨[], by simp [quoteLines, hm]⟩
  obtain ⟨tl, htl⟩ : ∃ tl, tradeLines (subMap fs "last_trade") = (tl, none) := by
    rcases ht with h | ⟨m, h⟩
    · exact ⟨[], by simp [subMap, h, tradeLines, pyTruthy]⟩
    · have hsub : subMap fs "last_trade" = JVal.jobj m := by simp [subMap, h]
      rw [hsub]
      by_cases hm : pyTruthy (JVal.jobj m)
      · exact ⟨[tradeLineStr m], by simp [tradeLines, hm]⟩
      · exact ⟨[], by simp [tradeLines, hm]⟩
  have hrc := renderContract_ok fs ds gs ty ql tl hds hty hgs hql htl
  rw [hrc]
  refine ⟨rfl, ?_, ?_, ?_, ?_, ?_, ?_, ?_, ?_, ?_, ?_, ?_, ?_⟩
  · intro h
    rw [hdf] at h
    simp [headLines, contractLine, fieldOr, h, pyStr,
      (show "Contract: " ++ "N/A" = "Contract: N/A" from rfl)]
  · intro h
    rw [hdf] at h
    have : ty = "N/A" := by
      rw [fieldOr, h] at hty
      simpa [pyUpper, (show upperStr "N/A" = "N/A" from rfl)] using hty.symm
    subst this
    simp [headLines]
  · intro s h
    rw [hdf] at h
    have : ty = upperStr s := by
      rw [fieldOr, h] at hty
      simpa [pyUpper] using hty.symm
    subst this
    simp [headLines]
  · intro h
    rw [hdf] at h
    simp [headLines, fieldOr, h, pyStr,
      (show "  Strike: $" ++ "N/A" = "  Strike: $N/A" from rfl)]
  · intro h
    rw [hdf] at h
    simp [headLines, fieldOr, h, pyStr,
      (show "  Expiration: " ++ "N/A" = "  Expiration: N/A" from rfl)]
  · intro h
    rw [hdf] at h
    simp [headLines, fieldOr, h, pyStr,
      (show "  Exercise Style: " ++ "N/A" = "  Exercise Style: N/A" from rfl)]
  · intro h
    rw [hgf] at h
    simp [greekLines, fieldOr, h, pyStr,
      (show "    Delta: " ++ "N/A" = "    Delta: N/A" from rfl)]
  · intro h
    rw [hgf] at h
    simp [greekLines, fieldOr, h, pyStr,
      (show "    Gamma: " ++ "N/A" = "    Gamma: N/A" from rfl)]
  · intro h
    rw [hgf] at h
    simp [greekLines, fieldOr, h, pyStr,
      (show "    Theta: " ++ "N/A" = "    Theta: N/A" from rfl)]
  · intro h
    rw [hgf] at h
    simp [greekLines, fieldOr, h, pyStr,
      (show "    Vega:  " ++ "N/A" = "    Vega:  N/A" from rfl)]
  · intro h
    simp [tailLines, fieldOr, h, pyStr,
      (show "  Implied Volatility: " ++ "N/A" = "  Implied Volatility: N/A" from rfl)]
  · intro h
    simp [tailLines, fieldOr, h, pyStr,
      (show "  Open Interest: " ++ "N/A" = "  Open Interest: N/A" from rfl)]

/-- Witness for C4 at the everything-absent contract. -/
theorem c4_witness :
    (renderContract (JVal.jobj [])).2 = none ∧
    "Contract: N/A" ∈ (renderContract (JVal.jobj [])).1 ∧
    "  Type: N/A" ∈ (renderContract (JVal.jobj [])).1 ∧
    "    Delta: N/A" ∈ (renderContract (JVal.jobj [])).1 ∧
    "  Implied Volatility: N/A" ∈ (renderContract (JVal.jobj [])).1 ∧
    "  Open Interest: N/A" ∈ (renderContract (JVal.jobj [])).1 := by
  have T := c4_absent_fields_render_NA [] (Or.inl rfl) (Or.inl rfl)
    (Or.inl rfl) (Or.inl rfl) (Or.inl rfl)
  exact ⟨T.1, T.2.1 rfl, T.2.2.1 rfl, T.2.2.2.2.2.2.2.1 rfl,
    T.2.2.2.2.2.2.2.2.2.2.2.1 rfl, T.2.2.2.2.2.2.2.2.2.2.2.2 rfl⟩
